import Mathlib

/-!
Verification development for the ATC4-HQ-SERVER file-download service
(`service.go`).  The Go source is shallowly embedded: paths are modelled as
strings over ASCII with `/` as the separator (the deployment target is Linux,
see the repository's Dockerfiles), the filesystem is a partial map from the
relative path handed to `os.Open` to an entry description, time is modelled
in nanoseconds (matching Go's `time.Duration` unit), and the chunked
streaming loop of `downloadHandler` is modelled as an explicit step function
on a loop state, iterated by a step counter.
-/

namespace FileServer

/-- `downloadDir` constant of service.go (line 15). -/
def downloadDir : String := "files"

/-- `queueSize` constant of service.go (line 17): capacity of `requestQueue`. -/
def queueSize : Nat := 1000

/-- The 32 KiB read buffer size of service.go line 128. -/
def chunkSize : Nat := 32 * 1024

/-- `20 * time.Minute` (service.go line 189) in nanoseconds. -/
def gateTimeoutNs : Nat := 20 * 60 * 1000000000

/-! ## Go `path/filepath` model (Unix rules) -/

/-- Split a character list at `/` separators; `cur` accumulates the current
segment in reverse.  Every separator produces a boundary, so empty segments
appear for leading, trailing, or doubled slashes. -/
def splitSlash : List Char → List Char → List (List Char)
  | [], cur => [cur.reverse]
  | c :: cs, cur => if c == '/' then cur.reverse :: splitSlash cs [] else splitSlash cs (c :: cur)

/-- The non-empty `/`-separated segments of a path string. -/
def pathSegments (s : String) : List String :=
  ((splitSlash s.data []).map (fun cs => String.mk cs)).filter (fun seg => !(seg == ""))

/-- Whether the path is absolute (begins with `/`), as in `filepath.IsAbs`
on Unix. -/
def isRooted (s : String) : Bool :=
  match s.data with
  | c :: _ => c == '/'
  | [] => false

/-- The segment pass of Go's `filepath.Clean` (Unix): drop `.` segments;
a `..` segment pops the previous kept segment, is dropped at the root of a
rooted path, and is kept at the front of a relative path.  `acc` holds the
kept segments in reverse order. -/
def cleanSegsGo (rooted : Bool) : List String → List String → List String
  | acc, [] => acc.reverse
  | acc, seg :: rest =>
    if seg = "." then cleanSegsGo rooted acc rest
    else if seg = ".." then
      match acc with
      | [] => if rooted then cleanSegsGo rooted [] rest else cleanSegsGo rooted [".."] rest
      | top :: below =>
        if top = ".." then cleanSegsGo rooted (".." :: top :: below) rest
        else cleanSegsGo rooted below rest
    else cleanSegsGo rooted (seg :: acc) rest

/-- Join segments with `/` (no leading or trailing separator). -/
def joinSegs : List String → String
  | [] => ""
  | [s] => s
  | s :: rest => s ++ "/" ++ joinSegs rest

/-- Go's `filepath.Clean` on Unix: shortest lexical equivalent of `path`.
The empty path cleans to `.`. -/
def goClean (path : String) : String :=
  if path = "" then "."
  else
    let segs := cleanSegsGo (isRooted path) [] (pathSegments path)
    if isRooted path then "/" ++ joinSegs segs
    else if segs = [] then "." else joinSegs segs

/-- Go's `filepath.Join` for two elements: empty elements are dropped, the
rest are joined with `/` and the result is cleaned; all-empty input gives
the empty string (not `.`). -/
def goJoin (a b : String) : String :=
  if a = "" ∧ b = "" then ""
  else if a = "" then goClean b
  else if b = "" then goClean a
  else goClean (a ++ "/" ++ b)

/-- Go's `filepath.Abs` relative to working directory `cwd` (assumed
absolute): an absolute path is cleaned, a relative one is joined under
`cwd`. -/
def goAbs (cwd path : String) : String :=
  if isRooted path then goClean path else goJoin cwd path

/-- Go's `filepath.Base` on Unix: the last non-empty segment after dropping
trailing slashes; `""` gives `.`, a path of only slashes gives `/`. -/
def goBase (p : String) : String :=
  if p = "" then "."
  else
    match (pathSegments p).getLast? with
    | some s => s
    | none => if isRooted p then "/" else "."

/-! ## Filesystem model and `downloadHandler` (service.go lines 57-175)

The filesystem is a map from the relative path handed to `os.Open` to an
entry.  A regular file's `Stat` size is its content length.  Opening a
directory succeeds and `Stat` succeeds (with the directory's stat size),
but the first `Read` from the handle fails (`EISDIR` on Linux), which is
exactly the behaviour the streaming loop observes. -/

/-- One filesystem entry reachable by `os.Open`. -/
inductive FsEntry
  /-- A regular file with the given byte content; `Stat().Size()` is the
  content length and reads deliver the content in order. -/
  | regular (content : List Nat)
  /-- A directory: `os.Open` and `Stat` succeed (`Stat().Size()` is `statSize`)
  but every `Read` from the handle fails with a non-EOF error. -/
  | directory (statSize : Nat)
  /-- `os.Open` fails with an error for which `os.IsNotExist` is false
  (e.g. permission denied). -/
  | openFails
  /-- `os.Open` succeeds but `file.Stat()` fails. -/
  | statFails
deriving DecidableEq

/-- A filesystem: `none` means `os.Open` fails with a not-exist error. -/
def Fs : Type := String → Option FsEntry

/-- `filepath.Join(downloadDir, filepath.Clean(fileName))` — the path the
handler opens (service.go line 77). -/
def resolvedFilePath (fileName : String) : String :=
  goJoin downloadDir (goClean fileName)

/-- The traversal check of service.go line 92, exactly as written in the
source: the request is rejected when the absolute resolved path is shorter
than the absolute root, or its leading `len(absDownloadDir)` bytes differ
from the root — a raw string-prefix comparison. -/
def pathEscapeRejected (cwd fileName : String) : Prop :=
  (goAbs cwd (resolvedFilePath fileName)).data.length < (goAbs cwd downloadDir).data.length ∨
  (goAbs cwd (resolvedFilePath fileName)).data.take (goAbs cwd downloadDir).data.length ≠
    (goAbs cwd downloadDir).data

instance (cwd fileName : String) : Decidable (pathEscapeRejected cwd fileName) := by
  unfold pathEscapeRejected; infer_instance

/-- The spec's separator-safe inside-root test on canonical absolute paths:
`p` is the root itself or lies strictly inside it, i.e. extends it across a
`/` boundary (never a mere raw string-prefix match with a sibling). -/
def specSeparatorSafeWithin (root p : String) : Bool :=
  p == root || (root ++ "/").data.isPrefixOf p.data

/-- The response headers set by `downloadHandler` before the body loop:
`Connection`/`Cache-Control` at lines 65-66 and the four download headers at
lines 119-122, with `Content-Length` the decimal of `stat.Size()` and the
attachment name `filepath.Base(fileName)` of the raw requested name. -/
def dlHeaders (fileName : String) (size : Nat) : List (String × String) :=
  [("Connection", "keep-alive"),
   ("Cache-Control", "no-cache"),
   ("Content-Disposition", "attachment; filename=\"" ++ goBase fileName ++ "\""),
   ("Content-Type", "application/octet-stream"),
   ("Content-Length", Nat.repr size),
   ("Accept-Ranges", "bytes")]

/-- First-match lookup in a header list. -/
def lookupHeader : List (String × String) → String → Option String
  | [], _ => none
  | (k, v) :: t, key => if k = key then some v else lookupHeader t key

/-- The source the streaming loop reads from once the handler reaches it. -/
inductive StreamSrc
  /-- An open regular file with this remaining content. -/
  | fileContent (content : List Nat)
  /-- An open directory handle: every read fails with a non-EOF error. -/
  | dirHandle
deriving DecidableEq

/-- Outcome of `downloadHandler` up to the streaming loop: either an error
status written before any download header/body (`earlyError`, recording the
path passed to `os.Open` when open was attempted), or entry into the
streaming loop with the committed headers and an open source. -/
inductive StartOutcome
  | earlyError (status : Nat) (openTried : Option String)
  | stream (openedPath : String) (headers : List (String × String)) (src : StreamSrc)
deriving DecidableEq

/-- `downloadHandler` from the `file` query parameter up to the streaming
loop (service.go lines 71-122): empty name → 400 before any path work; the
raw-prefix traversal check → 400 without opening; then `os.Open` (404 on
not-exist, 500 on other failures), `Stat` (500 on failure), and the header
block.  The two `filepath.Abs` error branches (lines 80-90) cannot fail in
this model, where `cwd` is given. -/
def downloadStart (cwd : String) (fs : Fs) (fileName : String) : StartOutcome :=
  if fileName = "" then StartOutcome.earlyError 400 none
  else if pathEscapeRejected cwd fileName then StartOutcome.earlyError 400 none
  else
    match fs (resolvedFilePath fileName) with
    | none => StartOutcome.earlyError 404 (some (resolvedFilePath fileName))
    | some FsEntry.openFails => StartOutcome.earlyError 500 (some (resolvedFilePath fileName))
    | some FsEntry.statFails => StartOutcome.earlyError 500 (some (resolvedFilePath fileName))
    | some (FsEntry.regular c) =>
        StartOutcome.stream (resolvedFilePath fileName)
          (dlHeaders fileName c.length) (StreamSrc.fileContent c)
    | some (FsEntry.directory sz) =>
        StartOutcome.stream (resolvedFilePath fileName)
          (dlHeaders fileName sz) StreamSrc.dirHandle

/-! ## The chunked streaming loop (service.go lines 131-172)

One loop iteration: the `select` polls `ctx.Done()` first (taking that case
whenever the signal has fired, and returning); otherwise `file.Read` fills
the 32 KiB buffer; a read that returns data is written to the sink (a write
error returns); `io.EOF` executes `break` — which in Go terminates the
innermost `select`, NOT the `for`, so the loop keeps re-reading EOF and only
ever exits through one of the `return` paths.  The state is iterated by an
explicit step counter; `term = none` means the loop is still running. -/

/-- Why the loop terminated.  `completed` is the normal-for-exit that the
source text intends with its `break` (followed by the completion log at
line 174); no step ever produces it because the `break` only leaves the
`select`. -/
inductive TermReason
  | completed
  | ctxDone
  | writeErr
  | readErr
deriving DecidableEq

/-- Configuration of one streaming run: the open source, the iteration index
from which `ctx.Done()` is observed as fired (none = never), and the index
of the `w.Write` call that fails (none = all writes succeed). -/
structure StreamCfg where
  src : StreamSrc
  cancelAt : Option Nat
  writeFailAt : Option Nat
deriving DecidableEq

/-- Mutable state of the streaming loop. -/
structure LoopSt where
  remaining : List Nat
  written : List Nat
  writes : Nat
  iter : Nat
  term : Option TermReason
deriving DecidableEq

/-- Whether the cancellation signal is observed fired at iteration `iter`. -/
def cancelObserved (cancelAt : Option Nat) (iter : Nat) : Bool :=
  match cancelAt with
  | some k => decide (k ≤ iter)
  | none => false

/-- Loop state on entry (service.go line 131). -/
def loopInit (cfg : StreamCfg) : LoopSt :=
  { remaining := match cfg.src with | StreamSrc.fileContent c => c | StreamSrc.dirHandle => []
    written := []
    writes := 0
    iter := 0
    term := none }

/-- One iteration of the `for`/`select` loop. -/
def loopStep (cfg : StreamCfg) (st : LoopSt) : LoopSt :=
  match st.term with
  | some _ => st
  | none =>
    if cancelObserved cfg.cancelAt st.iter then
      { st with term := some TermReason.ctxDone }
    else
      match cfg.src with
      | StreamSrc.dirHandle => { st with term := some TermReason.readErr }
      | StreamSrc.fileContent _ =>
        match st.remaining with
        | [] => { st with iter := st.iter + 1 }
        | _ :: _ =>
          if cfg.writeFailAt = some st.writes then
            { st with term := some TermReason.writeErr }
          else
            { st with
              remaining := st.remaining.drop chunkSize
              written := st.written ++ st.remaining.take chunkSize
              writes := st.writes + 1
              iter := st.iter + 1 }

/-- The loop state after `n` iterations. -/
def loopIter (cfg : StreamCfg) : Nat → LoopSt
  | 0 => loopInit cfg
  | n + 1 => loopStep cfg (loopIter cfg n)

end FileServer

namespace FileServer

/-! ## Admission queue and request gate (service.go lines 26-55, 177-207) -/

/-- One pending request as queued on `requestQueue` (the `Request` struct of
service.go lines 20-24, reduced to the data the model needs). -/
structure PendingReq where
  fileName : String
deriving DecidableEq

/-- The non-blocking enqueue of `queuedDownloadHandler`: a `select` tries
`requestQueue <- req` with a `default` branch.  With the buffered channel
modelled as a list bounded by `queueSize` and no receiver currently blocked,
the send succeeds exactly when the buffer has room; otherwise the `default`
branch runs, the queue unchanged. -/
def tryEnqueue (q : List PendingReq) (r : PendingReq) : Bool × List PendingReq :=
  if q.length < queueSize then (true, q ++ [r]) else (false, q)

/-- Submit each request in turn through `tryEnqueue`, collecting the
acceptance flags (no dequeue happens in between). -/
def submitAll : List PendingReq → List PendingReq → List Bool
  | _, [] => []
  | q, r :: rs => (tryEnqueue q r).fst :: submitAll (tryEnqueue q r).snd rs

/-- Events on the unbuffered `done` channel performed by one dispatched
transfer task. -/
inductive TaskEvent
  | handlerCall
  | doneSend
deriving DecidableEq

/-- The main body of the goroutine spawned per request in `processRequests`
(service.go lines 48-52): the 10 ms sleep, the `downloadHandler` call, then
`r.done <- true`. -/
def taskBody : List TaskEvent := [TaskEvent.handlerCall, TaskEvent.doneSend]

/-- The deferred function of that goroutine (service.go lines 41-46): it
runs when the body finishes or panics, recovers any panic, and performs
`r.done <- true`. -/
def taskDeferred : List TaskEvent := [TaskEvent.doneSend]

/-- The events one dispatched transfer task performs: if the handler call
panics the body stops there (the send at line 52 is skipped); the deferred
function always runs afterwards. -/
def transferTaskEvents (handlerPanics : Bool) : List TaskEvent :=
  (if handlerPanics then taskBody.take 1 else taskBody) ++ taskDeferred

/-- `done` is unbuffered (`make(chan bool)`, line 178) and the gate performs
at most one receive on it: a send completes only when matched by a receive,
so with `receives` receives available a task attempting more sends than that
blocks forever on the first unmatched send. -/
def taskBlocksForever (sends receives : Nat) : Bool :=
  decide (receives < sends)

/-! ### Dispatcher FIFO trace (service.go lines 37-55)

`requestQueue` is a buffered Go channel: sends append at the back (when not
full), the dispatcher's `range` receives from the front.  A run is an
arbitrary interleaving of gate-side enqueue attempts and dispatcher-side
dequeues; `accepted` records the admitted requests in admission order and
`dispatched` the requests in the order `processRequests` hands each to a
transfer goroutine. -/

/-- One queue operation: a gate-side `tryEnqueue`, or the dispatcher
receiving the next request. -/
inductive QOp
  | enq (r : PendingReq)
  | deq
deriving DecidableEq

/-- State of a queue run. -/
structure QTrace where
  buf : List PendingReq
  accepted : List PendingReq
  dispatched : List PendingReq
deriving DecidableEq

/-- One step of a queue run.  A full-queue enqueue is rejected (503, no
state change); a dequeue on an empty buffer blocks, so nothing happens. -/
def qStep (s : QTrace) : QOp → QTrace
  | QOp.enq r =>
    if s.buf.length < queueSize then
      { s with buf := s.buf ++ [r], accepted := s.accepted ++ [r] }
    else s
  | QOp.deq =>
    match s.buf with
    | [] => s
    | r :: rest => { s with buf := rest, dispatched := s.dispatched ++ [r] }

/-- Run a sequence of queue operations from a starting state. -/
def qRunFrom (s : QTrace) (ops : List QOp) : QTrace :=
  ops.foldl qStep s

/-- Run a sequence of queue operations from the empty queue. -/
def qRun (ops : List QOp) : QTrace :=
  qRunFrom ⟨[], [], []⟩ ops

/-! ### Request gate wait (service.go lines 177-207)

`queuedDownloadHandler` enqueues, then waits on `done` against a context
with a 20-minute timeout derived from the inbound request context.  Times
are nanoseconds from enqueue: `doneAt` is when the completion signal would
be received, `inboundCancelAt` when the inbound context is cancelled
(client disconnect); `none` means never.  The derived context fires at the
earlier of the inbound cancellation and the 20-minute timer; its `Err()` is
`DeadlineExceeded` exactly when the timer is what fired (ties between ready
`select` cases are nondeterministic in Go, so the theorems below only use
strict orderings). -/

/-- Outcome of the gate's wait. -/
inductive GateResp
  | busy503
  | doneNoWrite
  | timeout408
  | cancelledNoWrite
deriving DecidableEq

/-- When the derived context fires. -/
def ctxFireAt (inboundCancelAt : Option Nat) : Nat :=
  match inboundCancelAt with
  | some c => min c gateTimeoutNs
  | none => gateTimeoutNs

/-- Whether `ctx.Err()` is `context.DeadlineExceeded` when the derived
context fires (the timer fired no later than the inbound cancellation). -/
def ctxErrIsDeadline (inboundCancelAt : Option Nat) : Bool :=
  match inboundCancelAt with
  | some c => decide (gateTimeoutNs ≤ c)
  | none => true

/-- Whether the completion signal is received strictly before the derived
context fires. -/
def doneFiresFirst (doneAt : Option Nat) (inboundCancelAt : Option Nat) : Bool :=
  match doneAt with
  | some d => decide (d < ctxFireAt inboundCancelAt)
  | none => false

/-- `queuedDownloadHandler`: reject with 503 when the queue is full;
otherwise wait for `done` against the derived context; on the context
firing first, write 408 only for `DeadlineExceeded`, and write nothing on
inbound cancellation. -/
def queuedGate (queueLen : Nat) (doneAt : Option Nat) (inboundCancelAt : Option Nat) : GateResp :=
  if queueSize ≤ queueLen then GateResp.busy503
  else if doneFiresFirst doneAt inboundCancelAt then GateResp.doneNoWrite
  else if ctxErrIsDeadline inboundCancelAt then GateResp.timeout408
  else GateResp.cancelledNoWrite

/-- The status, if any, the gate itself writes to the response. -/
def gateWritesStatus : GateResp → Option Nat
  | GateResp.busy503 => some 503
  | GateResp.doneNoWrite => none
  | GateResp.timeout408 => some 408
  | GateResp.cancelledNoWrite => none

end FileServer
namespace FileServer

/-! ## Streaming-loop lemmas -/

/-- A terminated loop state is a fixed point of the step function. -/
theorem loopStep_term_some (cfg : StreamCfg) (st : LoopSt) (t : TermReason)
    (h : st.term = some t) : loopStep cfg st = st := by
  unfold loopStep
  rw [h]

/-- In a run on a regular file with no cancellation and no write failure,
after `n` iterations the loop is still running, has performed `n`
iterations, and has moved exactly the first `n` chunks of the content from
`remaining` to `written` (capped at the content's length). -/
theorem loopIter_clean (c : List Nat) (n : Nat) :
    (loopIter ⟨StreamSrc.fileContent c, none, none⟩ n).term = none ∧
    (loopIter ⟨StreamSrc.fileContent c, none, none⟩ n).iter = n ∧
    (loopIter ⟨StreamSrc.fileContent c, none, none⟩ n).remaining = c.drop (chunkSize * n) ∧
    (loopIter ⟨StreamSrc.fileContent c, none, none⟩ n).written = c.take (chunkSize * n) := by
  induction n with
  | zero => simp [loopIter, loopInit]
  | succ n ih =>
    obtain ⟨ht, hi, hr, hw⟩ := ih
    have hstep : loopIter ⟨StreamSrc.fileContent c, none, none⟩ (n + 1)
        = loopStep ⟨StreamSrc.fileContent c, none, none⟩
            (loopIter ⟨StreamSrc.fileContent c, none, none⟩ n) := rfl
    rw [hstep]
    unfold loopStep
    rw [ht, hr]
    cases hdrop : c.drop (chunkSize * n) with
    | nil =>
      have hle : c.length ≤ chunkSize * n := List.drop_eq_nil_iff.mp hdrop
      have hle' : c.length ≤ chunkSize * (n + 1) :=
        Nat.le_trans hle (Nat.mul_le_mul_left _ (Nat.le_succ n))
      refine ⟨?_, ?_, ?_, ?_⟩
      · simp [cancelObserved, ht]
      · simp [cancelObserved, hi]
      · simp [cancelObserved]
        exact hle'
      · simp [cancelObserved, hw]
        rw [min_eq_right hle, min_eq_right hle']
    | cons x xs =>
      refine ⟨?_, ?_, ?_, ?_⟩
      · simp [cancelObserved]
      · simp [cancelObserved, hi]
      · simp [cancelObserved]
        rw [← hdrop, List.drop_drop]
        have harith : chunkSize * n + chunkSize = chunkSize * (n + 1) := by ring
        rw [harith]
      · simp [cancelObserved, hw]
        rw [← hdrop]
        have harith : chunkSize * (n + 1) = chunkSize * n + chunkSize := by ring
        rw [harith, List.take_add]

end FileServer

namespace FileServer

/-- Before the cancellation signal fires, a run with `cancelAt = some k`
is step-for-step identical to the run that is never cancelled. -/
theorem loopIter_cancel_agrees (c : List Nat) (k : Nat) :
    ∀ n, n ≤ k →
      loopIter ⟨StreamSrc.fileContent c, some k, none⟩ n
        = loopIter ⟨StreamSrc.fileContent c, none, none⟩ n := by
  intro n
  induction n with
  | zero => intro _; rfl
  | succ n ih =>
    intro h
    have hn : n ≤ k := Nat.le_of_succ_le h
    have hstep : loopIter ⟨StreamSrc.fileContent c, some k, none⟩ (n + 1)
        = loopStep ⟨StreamSrc.fileContent c, some k, none⟩
            (loopIter ⟨StreamSrc.fileContent c, some k, none⟩ n) := rfl
    rw [hstep, ih hn]
    obtain ⟨ht, hi, hr, hw⟩ := loopIter_clean c n
    show _ = loopStep ⟨StreamSrc.fileContent c, none, none⟩
        (loopIter ⟨StreamSrc.fileContent c, none, none⟩ n)
    unfold loopStep
    rw [ht, hi]
    have hc : cancelObserved (some k) n = false := by
      simp [cancelObserved]
      omega
    rw [hc]
    rfl

/-- At iteration `k` the fired signal is observed: the loop stops with
`ctxDone`, with everything else exactly as after `k` clean iterations. -/
theorem loopIter_cancel_fires (c : List Nat) (k : Nat) :
    loopIter ⟨StreamSrc.fileContent c, some k, none⟩ (k + 1)
      = { loopIter ⟨StreamSrc.fileContent c, none, none⟩ k
            with term := some TermReason.ctxDone } := by
  have hstep : loopIter ⟨StreamSrc.fileContent c, some k, none⟩ (k + 1)
      = loopStep ⟨StreamSrc.fileContent c, some k, none⟩
          (loopIter ⟨StreamSrc.fileContent c, some k, none⟩ k) := rfl
  rw [hstep, loopIter_cancel_agrees c k k (Nat.le_refl k)]
  obtain ⟨ht, hi, hr, hw⟩ := loopIter_clean c k
  unfold loopStep
  rw [ht]
  have hc : cancelObserved (some k)
      (loopIter ⟨StreamSrc.fileContent c, none, none⟩ k).iter = true := by
    rw [hi]; simp [cancelObserved]
  rw [hc]
  simp

/-- Once terminated, the loop state never changes again. -/
theorem loopIter_frozen (cfg : StreamCfg) (n : Nat) (t : TermReason)
    (h : (loopIter cfg n).term = some t) :
    ∀ m, loopIter cfg (n + m) = loopIter cfg n := by
  intro m
  induction m with
  | zero => rfl
  | succ m ih =>
    have hstep : loopIter cfg (n + (m + 1)) = loopStep cfg (loopIter cfg (n + m)) := rfl
    rw [hstep, ih, loopStep_term_some cfg _ t h]

/-- No step produces the `completed` termination reason: the `break` at
service.go line 164 leaves only the `select`, so the `for` never exits
normally. -/
theorem loopStep_not_completed (cfg : StreamCfg) (st : LoopSt)
    (h : (loopStep cfg st).term = some TermReason.completed) :
    st.term = some TermReason.completed := by
  unfold loopStep at h
  split at h
  · exact h
  · split at h
    · simp at h
    · split at h
      · simp at h
      · split at h
        · exact h
        · split at h
          · simp at h
          · exact h

/-- The streaming loop never reaches the `Completed` outcome, whatever the
source, cancellation timing, or write failures. -/
theorem loopIter_never_completed (cfg : StreamCfg) (n : Nat) :
    (loopIter cfg n).term ≠ some TermReason.completed := by
  induction n with
  | zero => simp [loopIter, loopInit]
  | succ n ih =>
    intro h
    exact ih (loopStep_not_completed cfg _ h)

end FileServer

namespace FileServer

/-! ## Queue lemmas -/

/-- If the submitted batch overfills the queue, at least one submission is
rejected. -/
theorem submitAll_one_reject (rs : List PendingReq) :
    ∀ q : List PendingReq, q.length ≤ queueSize → queueSize < q.length + rs.length →
      1 ≤ (submitAll q rs).count false := by
  induction rs with
  | nil =>
    intro q hq hover
    simp at hover
    omega
  | cons r rest ih =>
    intro q hq hover
    by_cases hfull : q.length < queueSize
    · have henq : tryEnqueue q r = (true, q ++ [r]) := by
        unfold tryEnqueue
        rw [if_pos hfull]
      simp only [submitAll, henq]
      have h1 : (q ++ [r]).length ≤ queueSize := by
        simp
        omega
      have h2 : queueSize < (q ++ [r]).length + rest.length := by
        simp at hover ⊢
        omega
      have := ih (q ++ [r]) h1 h2
      simpa using this
    · have henq : tryEnqueue q r = (false, q) := by
        unfold tryEnqueue
        rw [if_neg hfull]
      simp only [submitAll, henq]
      simp [List.count_cons]

/-- The admitted requests are always the dispatched ones followed by those
still buffered, in order: the FIFO channel neither loses, duplicates, nor
reorders admitted requests. -/
theorem qRunFrom_inv (ops : List QOp) :
    ∀ s : QTrace, s.accepted = s.dispatched ++ s.buf →
      (qRunFrom s ops).accepted = (qRunFrom s ops).dispatched ++ (qRunFrom s ops).buf := by
  induction ops with
  | nil => intro s hs; exact hs
  | cons op rest ih =>
    intro s hs
    have hstep : qRunFrom s (op :: rest) = qRunFrom (qStep s op) rest := rfl
    rw [hstep]
    apply ih
    cases op with
    | enq r =>
      simp only [qStep]
      by_cases hfull : s.buf.length < queueSize
      · rw [if_pos hfull]
        simp [hs]
      · rw [if_neg hfull]
        exact hs
    | deq =>
      simp only [qStep]
      cases hbuf : s.buf with
      | nil =>
        simp_all
      | cons x rest' =>
        simp_all

end FileServer

namespace FileServer

/-! ## Claim theorems -/

/-- A filesystem in which the sibling directory `files2` of the root
`files` holds a one-byte file `x`. -/
def fsSiblingEscape : Fs :=
  fun p => if p = "files2/x" then some (FsEntry.regular [42]) else none

/-- C1: the claim states that every requested name whose canonicalized join
escapes the root fails with PathEscape (400) before the file is opened, the
inside-root comparison being separator-safe.  The code violates this: from
working directory `/srv`, the request `file=../files2/x` resolves to
`/srv/files2/x`, which escapes the root `/srv/files` under the spec's
separator-safe test, yet the raw string-prefix check of service.go line 92
accepts it (the first 10 bytes equal `/srv/files`) and the sibling file is
opened and streamed.  A genuinely root-escaping traversal such as
`../../etc/passwd` is rejected, which shows the failure is specifically the
prefix-but-not-ancestor sibling case the claim singles out. -/
theorem claim_C1_raw_check_admits_sibling_escape :
    downloadStart "/srv" fsSiblingEscape "../files2/x"
      = StartOutcome.stream "files2/x" (dlHeaders "../files2/x" 1) (StreamSrc.fileContent [42]) ∧
    specSeparatorSafeWithin (goAbs "/srv" downloadDir)
      (goAbs "/srv" (resolvedFilePath "../files2/x")) = false ∧
    downloadStart "/srv" fsSiblingEscape "../../etc/passwd"
      = StartOutcome.earlyError 400 none :=
  ⟨by decide, by decide, by decide⟩

/-- C2: the claim states that every dispatched request's completion signal
is written exactly once (at most once, at least once).  The code violates
the at-most-once half: when `downloadHandler` returns normally, the task
body sends on `done` (service.go line 52) and then the deferred function
sends again (line 45) — two sends, where the unbuffered channel has at most
one receive from the gate, so the second send blocks the goroutine forever.
Only on a handler panic is the signal written exactly once (the deferred
send). -/
theorem claim_C2_done_signal_double_send :
    (transferTaskEvents false).count TaskEvent.doneSend = 2 ∧
    (transferTaskEvents true).count TaskEvent.doneSend = 1 ∧
    taskBlocksForever ((transferTaskEvents false).count TaskEvent.doneSend) 1 = true :=
  ⟨by decide, by decide, by decide⟩

/-- C3: for a regular file of size S under the root, the handler reaches the
streaming loop with the full header block committed first — Content-Length
equal to S, Content-Type `application/octet-stream`, attachment disposition
with the base file name — and the loop then writes exactly the file's
content: after any `n` iterations the bytes written are precisely the first
`chunkSize * n` bytes of the content (headers are fixed before the loop, so
they precede every body byte), and the delivered body is exactly the
S-byte content. -/
theorem claim_C3_success_headers_then_exact_body (cwd : String) (fs : Fs)
    (fileName : String) (c : List Nat)
    (hne : fileName ≠ "")
    (hck : ¬ pathEscapeRejected cwd fileName)
    (hfs : fs (resolvedFilePath fileName) = some (FsEntry.regular c)) :
    downloadStart cwd fs fileName
      = StartOutcome.stream (resolvedFilePath fileName)
          (dlHeaders fileName c.length) (StreamSrc.fileContent c) ∧
    lookupHeader (dlHeaders fileName c.length) "Content-Length" = some (Nat.repr c.length) ∧
    lookupHeader (dlHeaders fileName c.length) "Content-Type"
      = some "application/octet-stream" ∧
    lookupHeader (dlHeaders fileName c.length) "Content-Disposition"
      = some ("attachment; filename=\"" ++ goBase fileName ++ "\"") ∧
    (∀ n, (loopIter ⟨StreamSrc.fileContent c, none, none⟩ n).written
        = c.take (chunkSize * n)) ∧
    (loopIter ⟨StreamSrc.fileContent c, none, none⟩ c.length).written = c := by
  refine ⟨?_, rfl, rfl, rfl, fun n => (loopIter_clean c n).2.2.2, ?_⟩
  · unfold downloadStart
    rw [if_neg hne, if_neg hck, hfs]
  · rw [(loopIter_clean c c.length).2.2.2]
    exact List.take_of_length_le (Nat.le_mul_of_pos_left _ (by decide))

/-- Root containing the regular file `report.pdf` with bytes 7, 8, 9. -/
def fsReport : Fs :=
  fun p => if p = "files/report.pdf" then some (FsEntry.regular [7, 8, 9]) else none

/-- Witness for C3: concrete successful transfer of the 3-byte
`report.pdf`. -/
theorem claim_C3_witness :
    downloadStart "/srv" fsReport "report.pdf"
      = StartOutcome.stream (resolvedFilePath "report.pdf")
          (dlHeaders "report.pdf" 3) (StreamSrc.fileContent [7, 8, 9]) ∧
    (loopIter ⟨StreamSrc.fileContent [7, 8, 9], none, none⟩ 3).written = [7, 8, 9] := by
  have h := claim_C3_success_headers_then_exact_body "/srv" fsReport "report.pdf" [7, 8, 9]
    (by decide) (by decide) (by decide)
  exact ⟨h.1, h.2.2.2.2.2⟩

end FileServer

namespace FileServer

/-- C4: when the admission queue already holds `queueSize` pending requests,
a further submission is rejected at once — `tryEnqueue` returns `false` with
the queue unchanged (it never blocks: it is a total function of the current
state) — and the gate answers 503; moreover submitting `queueSize + 1`
requests into an empty queue with no dequeue in between yields at least one
rejection. -/
theorem claim_C4_full_queue_rejects_immediately (q : List PendingReq) (r : PendingReq)
    (doneAt inboundCancelAt : Option Nat)
    (hfull : q.length = queueSize) :
    tryEnqueue q r = (false, q) ∧
    queuedGate q.length doneAt inboundCancelAt = GateResp.busy503 ∧
    gateWritesStatus (queuedGate q.length doneAt inboundCancelAt) = some 503 ∧
    (∀ rs : List PendingReq, rs.length = queueSize + 1 →
      1 ≤ (submitAll [] rs).count false) := by
  have h1 : tryEnqueue q r = (false, q) := by
    unfold tryEnqueue
    rw [if_neg (by omega)]
  have h2 : queuedGate q.length doneAt inboundCancelAt = GateResp.busy503 := by
    unfold queuedGate
    rw [if_pos (by omega)]
  refine ⟨h1, h2, by rw [h2]; rfl, ?_⟩
  intro rs hrs
  refine submitAll_one_reject rs [] (by simp) ?_
  simp [hrs]

/-- Witness for C4: a queue holding exactly `queueSize` requests rejects the
next one and leaves the queue unchanged. -/
theorem claim_C4_witness :
    tryEnqueue (List.replicate queueSize ⟨"a"⟩) ⟨"b"⟩
      = (false, List.replicate queueSize ⟨"a"⟩) ∧
    queuedGate (List.replicate queueSize (⟨"a"⟩ : PendingReq)).length none none
      = GateResp.busy503 := by
  have h := claim_C4_full_queue_rejects_immediately
    (List.replicate queueSize ⟨"a"⟩) ⟨"b"⟩ none none (by simp)
  exact ⟨h.1, h.2.1⟩

/-- C5: whenever the inbound cancellation signal fires at iteration `k`
(i.e. after `k` chunks have been written), the loop — which polls the signal
at the top of each iteration, before the read — runs identically to an
uncancelled run for its first `k` iterations, observes the signal at
iteration `k + 1` and stops there with outcome `ctxDone`, having written
exactly the first `chunkSize * k` bytes; the state never changes again (no
further reads or writes), and no run of the loop ever reaches the
`completed` outcome. -/
theorem claim_C5_cancel_stops_within_one_iteration (c : List Nat) (k : Nat) :
    (loopIter ⟨StreamSrc.fileContent c, some k, none⟩ (k + 1)).term
      = some TermReason.ctxDone ∧
    (loopIter ⟨StreamSrc.fileContent c, some k, none⟩ (k + 1)).written
      = c.take (chunkSize * k) ∧
    (∀ n, n ≤ k → loopIter ⟨StreamSrc.fileContent c, some k, none⟩ n
        = loopIter ⟨StreamSrc.fileContent c, none, none⟩ n) ∧
    (∀ m, loopIter ⟨StreamSrc.fileContent c, some k, none⟩ (k + 1 + m)
        = loopIter ⟨StreamSrc.fileContent c, some k, none⟩ (k + 1)) ∧
    (∀ n, (loopIter ⟨StreamSrc.fileContent c, some k, none⟩ n).term
        ≠ some TermReason.completed) := by
  have hfire := loopIter_cancel_fires c k
  obtain ⟨ht, hi, hr, hw⟩ := loopIter_clean c k
  refine ⟨?_, ?_, loopIter_cancel_agrees c k, ?_, fun n => loopIter_never_completed _ n⟩
  · rw [hfire]
  · rw [hfire]
    exact hw
  · exact loopIter_frozen _ (k + 1) TermReason.ctxDone (by rw [hfire])

/-- Witness for C5: on the 3-byte file with the signal firing at iteration 1,
the loop halts at iteration 2 with outcome `ctxDone` and the single chunk
already written. -/
theorem claim_C5_witness :
    (loopIter ⟨StreamSrc.fileContent [1, 2, 3], some 1, none⟩ 2).term
      = some TermReason.ctxDone ∧
    (loopIter ⟨StreamSrc.fileContent [1, 2, 3], some 1, none⟩ 2).written
      = [1, 2, 3].take (chunkSize * 1) := by
  have h := claim_C5_cancel_stops_within_one_iteration [1, 2, 3] 1
  exact ⟨h.1, h.2.1⟩

end FileServer

namespace FileServer

/-- C6: the error taxonomy of `downloadHandler`: an empty `file` parameter
yields 400 before any path work (the outcome is the same for every working
directory and filesystem, and no open is attempted); a name that resolves
inside the root but is absent yields 404; any other open failure yields 500;
a stat failure yields 500; and every early-error status the handler can emit
is one of 400, 404, 500 — being a pure function of its inputs, the handler
affects no state beyond the returned response. -/
theorem claim_C6_error_taxonomy :
    (∀ (cwd : String) (fs : Fs),
      downloadStart cwd fs "" = StartOutcome.earlyError 400 none) ∧
    (∀ (cwd : String) (fs : Fs) (fn : String), fn ≠ "" →
      ¬ pathEscapeRejected cwd fn → fs (resolvedFilePath fn) = none →
      downloadStart cwd fs fn
        = StartOutcome.earlyError 404 (some (resolvedFilePath fn))) ∧
    (∀ (cwd : String) (fs : Fs) (fn : String), fn ≠ "" →
      ¬ pathEscapeRejected cwd fn → fs (resolvedFilePath fn) = some FsEntry.openFails →
      downloadStart cwd fs fn
        = StartOutcome.earlyError 500 (some (resolvedFilePath fn))) ∧
    (∀ (cwd : String) (fs : Fs) (fn : String), fn ≠ "" →
      ¬ pathEscapeRejected cwd fn → fs (resolvedFilePath fn) = some FsEntry.statFails →
      downloadStart cwd fs fn
        = StartOutcome.earlyError 500 (some (resolvedFilePath fn))) ∧
    (∀ (cwd : String) (fs : Fs) (fn : String) (s : Nat) (o : Option String),
      downloadStart cwd fs fn = StartOutcome.earlyError s o →
      s = 400 ∨ s = 404 ∨ s = 500) := by
  refine ⟨?_, ?_, ?_, ?_, ?_⟩
  · intro cwd fs
    unfold downloadStart
    rw [if_pos rfl]
  · intro cwd fs fn hne hck hfs
    unfold downloadStart
    rw [if_neg hne, if_neg hck, hfs]
  · intro cwd fs fn hne hck hfs
    unfold downloadStart
    rw [if_neg hne, if_neg hck, hfs]
  · intro cwd fs fn hne hck hfs
    unfold downloadStart
    rw [if_neg hne, if_neg hck, hfs]
  · intro cwd fs fn s o h
    unfold downloadStart at h
    split at h
    · simp_all
    · split at h
      · simp_all
      · split at h <;> simp_all

/-- An empty root: every open fails with not-exist. -/
def fsEmpty : Fs := fun _ => none

/-- Witness for C6: an empty name gives 400 and a missing `nope.txt` gives
404 with the resolved path `files/nope.txt` having been passed to open. -/
theorem claim_C6_witness :
    downloadStart "/srv" fsEmpty "" = StartOutcome.earlyError 400 none ∧
    downloadStart "/srv" fsEmpty "nope.txt"
      = StartOutcome.earlyError 404 (some "files/nope.txt") := by
  refine ⟨claim_C6_error_taxonomy.1 "/srv" fsEmpty, ?_⟩
  have h := claim_C6_error_taxonomy.2.1 "/srv" fsEmpty "nope.txt"
    (by decide) (by decide) rfl
  exact h

/-- C7: when the 20-minute deadline of the gate's derived context elapses
before the completion signal fires (and before any inbound cancellation, so
`ctx.Err()` is `DeadlineExceeded`), the gate responds 408; and nothing
connects the gate's deadline to the transfer: the streaming loop's progress
is a function only of its own source and of the inbound cancellation signal,
so an uncancelled transfer keeps writing chunk after chunk regardless of the
gate having timed out. -/
theorem claim_C7_deadline_408_transfer_uncancelled (queueLen : Nat)
    (doneAt : Option Nat) (inboundCancelAt : Option Nat)
    (hq : queueLen < queueSize)
    (hdl : ctxErrIsDeadline inboundCancelAt = true)
    (hdone : ∀ d, doneAt = some d → gateTimeoutNs < d) :
    queuedGate queueLen doneAt inboundCancelAt = GateResp.timeout408 ∧
    gateWritesStatus (queuedGate queueLen doneAt inboundCancelAt) = some 408 ∧
    (∀ c n, (loopIter ⟨StreamSrc.fileContent c, none, none⟩ n).written
        = c.take (chunkSize * n) ∧
      (loopIter ⟨StreamSrc.fileContent c, none, none⟩ n).term = none) := by
  have hfire : ctxFireAt inboundCancelAt = gateTimeoutNs := by
    cases inboundCancelAt with
    | none => rfl
    | some cAt =>
      simp [ctxErrIsDeadline] at hdl
      simp [ctxFireAt]
      omega
  have hmain : queuedGate queueLen doneAt inboundCancelAt = GateResp.timeout408 := by
    unfold queuedGate
    rw [if_neg (by omega)]
    have hdf : doneFiresFirst doneAt inboundCancelAt = false := by
      cases doneAt with
      | none => rfl
      | some d =>
        have hd := hdone d rfl
        simp [doneFiresFirst, hfire]
        omega
    rw [hdf]
    simp [hdl]
  exact ⟨hmain, by rw [hmain]; rfl,
    fun c n => ⟨(loopIter_clean c n).2.2.2, (loopIter_clean c n).1⟩⟩

/-- Witness for C7: queue empty, completion never signalled, client never
disconnects — the gate times out with 408. -/
theorem claim_C7_witness :
    queuedGate 0 none none = GateResp.timeout408 ∧
    gateWritesStatus (queuedGate 0 none none) = some 408 := by
  have h := claim_C7_deadline_408_transfer_uncancelled 0 none none
    (by decide) (by decide) (fun d hd => by cases hd)
  exact ⟨h.1, h.2.1⟩

/-- C8: FIFO dispatch.  Over any interleaving of admissions and dispatcher
dequeues starting from the empty queue, the admitted requests are exactly
the dispatched ones followed by the still-buffered ones in admission order;
equivalently the dispatch sequence is precisely the initial segment of the
admission sequence — so of two admitted requests, the earlier-admitted one
is handed to its transfer goroutine no later than the other, with no
reordering and no priorities. -/
theorem claim_C8_fifo_dispatch (ops : List QOp) :
    (qRun ops).accepted = (qRun ops).dispatched ++ (qRun ops).buf ∧
    (qRun ops).dispatched = (qRun ops).accepted.take (qRun ops).dispatched.length := by
  have h : (qRun ops).accepted = (qRun ops).dispatched ++ (qRun ops).buf :=
    qRunFrom_inv ops ⟨[], [], []⟩ rfl
  refine ⟨h, ?_⟩
  rw [h]
  exact (List.take_left _ _).symm

/-- Witness for C8: two admissions then one dequeue dispatch the
first-admitted request first. -/
theorem claim_C8_witness :
    (qRun [QOp.enq ⟨"a"⟩, QOp.enq ⟨"b"⟩, QOp.deq]).dispatched
      = (qRun [QOp.enq ⟨"a"⟩, QOp.enq ⟨"b"⟩, QOp.deq]).accepted.take
          (qRun [QOp.enq ⟨"a"⟩, QOp.enq ⟨"b"⟩, QOp.deq]).dispatched.length :=
  (claim_C8_fifo_dispatch [QOp.enq ⟨"a"⟩, QOp.enq ⟨"b"⟩, QOp.deq]).2

/-- C9: a requested name that canonicalizes to the root itself (such as `.`)
or to a subdirectory passes the handler's checks — no regular-file test
exists — so the directory is opened, the full success-header block is
committed with Content-Length equal to the directory's stat size, and the
streaming loop then aborts on its very first iteration when the read from
the directory handle fails, with nothing written to the body. -/
theorem claim_C9_directory_headers_then_read_abort (cwd : String) (fs : Fs)
    (fileName : String) (sz : Nat)
    (hne : fileName ≠ "")
    (hck : ¬ pathEscapeRejected cwd fileName)
    (hfs : fs (resolvedFilePath fileName) = some (FsEntry.directory sz)) :
    downloadStart cwd fs fileName
      = StartOutcome.stream (resolvedFilePath fileName)
          (dlHeaders fileName sz) StreamSrc.dirHandle ∧
    lookupHeader (dlHeaders fileName sz) "Content-Length" = some (Nat.repr sz) ∧
    (loopIter ⟨StreamSrc.dirHandle, none, none⟩ 1).term = some TermReason.readErr ∧
    (loopIter ⟨StreamSrc.dirHandle, none, none⟩ 1).written = [] := by
  refine ⟨?_, rfl, rfl, rfl⟩
  unfold downloadStart
  rw [if_neg hne, if_neg hck, hfs]

/-- The root directory itself as a 4096-byte directory entry. -/
def fsRootDir : Fs :=
  fun p => if p = "files" then some (FsEntry.directory 4096) else none

/-- Witness for C9: requesting `.` resolves to the root directory `files`,
which is opened and streamed-from until the first read fails. -/
theorem claim_C9_witness :
    downloadStart "/srv" fsRootDir "."
      = StartOutcome.stream (resolvedFilePath ".")
          (dlHeaders "." 4096) StreamSrc.dirHandle :=
  (claim_C9_directory_headers_then_read_abort "/srv" fsRootDir "." 4096
    (by decide) (by decide) (by decide)).1

/-- C10: if the inbound request context is cancelled at time `c` before the
20-minute deadline while the gate is still waiting (the completion signal
would fire only later), the derived context fires with `Err() = Canceled`,
so the gate returns without writing any status or body; and conversely the
gate's 408 response arises only when `ctx.Err()` is `DeadlineExceeded`. -/
theorem claim_C10_inbound_cancel_writes_nothing (queueLen : Nat)
    (doneAt : Option Nat) (c : Nat)
    (hq : queueLen < queueSize)
    (hc : c < gateTimeoutNs)
    (hdone : ∀ d, doneAt = some d → c < d) :
    queuedGate queueLen doneAt (some c) = GateResp.cancelledNoWrite ∧
    gateWritesStatus (queuedGate queueLen doneAt (some c)) = none ∧
    (∀ (ql : Nat) (dn inb : Option Nat),
      queuedGate ql dn inb = GateResp.timeout408 → ctxErrIsDeadline inb = true) := by
  have hfire : ctxFireAt (some c) = c := by
    simp [ctxFireAt]
    omega
  have hmain : queuedGate queueLen doneAt (some c) = GateResp.cancelledNoWrite := by
    unfold queuedGate
    rw [if_neg (by omega)]
    have hdf : doneFiresFirst doneAt (some c) = false := by
      cases doneAt with
      | none => rfl
      | some d =>
        have hd := hdone d rfl
        simp [doneFiresFirst, hfire]
        omega
    rw [hdf]
    have hdl : ctxErrIsDeadline (some c) = false := by
      simp [ctxErrIsDeadline]
      omega
    simp [hdl]
  refine ⟨hmain, by rw [hmain]; rfl, ?_⟩
  intro ql dn inb h
  unfold queuedGate at h
  split at h
  · cases h
  · split at h
    · cases h
    · split at h
      · next hdl => exact hdl
      · cases h

/-- Witness for C10: client disconnects one minute in, completion never
fires — the gate writes nothing. -/
theorem claim_C10_witness :
    queuedGate 0 none (some 60000000000) = GateResp.cancelledNoWrite ∧
    gateWritesStatus (queuedGate 0 none (some 60000000000)) = none := by
  have h := claim_C10_inbound_cancel_writes_nothing 0 none 60000000000
    (by decide) (by decide) (fun d hd => by cases hd)
  exact ⟨h.1, h.2.1⟩

end FileServer
